import Mathlib

/-!
Verification of the `fuse_operations` attribute macro of the fuse-sys
repository (`src/filesystem-macro/src/lib.rs`) together with the pieces of
the error crate it relies on (`src/filesystem-error/src/lib.rs`).

The macro consumes the field list of the native `fuse_operations` struct and
generates, per eligible field: two safe trait methods (exclusive `&mut self`
and shared `&self` flavor), a raw trampoline per flavor, and an assignment of
the trampoline into the assembled operation table.  This file gives a shallow
embedding of:

* the type shapes the macro inspects (`CTy`, `FieldTy`) and the field
  analyzer of the macro's main loop (`acceptField`, `fuseOperationsGen`);
* the signature synthesizer `UnsafeFnConvert::new`, including its exact
  two-iterator scan (`scan`, `fnConvert`) whose lookahead iterator advances
  once per loop iteration even when a pointer+length pair consumes two
  entries of the main iterator;
* the value-level conversions the emitted trampoline performs on raw
  arguments (`applySpecs`), including the panicking `CStr → str` decode;
* the result mapping of the emitted trampoline (`mapResult`) over a model of
  `anyhow::Error` restricted to the downcasts the code performs;
* the emitted trampoline itself (`trampoline`), with the native library
  (`fuse_fs_new` / `fuse_fs_<op>` / `fuse_fs_destroy`) abstracted as an
  oracle and recorded as an event trace;
* the `FuseMain::run` harness (`runHarness`).
-/

/-- The shapes of raw C types the macro distinguishes: raw pointers
(`Type::Ptr`, with `isMut = true` for `*mut`) and path types, of which only
the last segment's identifier is ever inspected (`is_ident`). -/
inductive CTy
  | ptr (isMut : Bool) (elem : CTy)
  | path (ident : String)
deriving DecidableEq, Repr

/-- `is_ident`: true exactly when the type is a path whose last segment is
the given identifier. -/
def isIdentTy (t : CTy) (s : String) : Bool :=
  match t with
  | .path i => i == s
  | _ => false

/-- One named argument of a raw bare-fn signature (`BareFnArg`). -/
structure RawArg where
  name : String
  ty : CTy
deriving DecidableEq, Repr

/-- The parts of a `TypeBareFn` the analyzer inspects. `output = none`
models `ReturnType::Default`. -/
structure BareFn where
  inputs : List RawArg
  variadic : Bool
  output : Option CTy
deriving DecidableEq, Repr

/-- First generic argument of an `Option<...>` field type: either a bare-fn
type or anything else (which the analyzer skips). -/
inductive GenArg
  | tyFn (fn : BareFn)
  | otherArg
deriving DecidableEq, Repr

/-- The shapes of struct-field types the analyzer distinguishes:
`optionTy a` is a path type whose last segment is `Option` with
angle-bracketed arguments whose first argument is `a`; `pathTy s` is any
other path type (including `Option` without angle-bracketed arguments);
`otherTy` is a non-path type. -/
inductive FieldTy
  | optionTy (first : GenArg)
  | pathTy (ident : String)
  | otherTy
deriving DecidableEq, Repr

/-- A named field of the operation-table struct. -/
structure StructField where
  name : String
  ty : FieldTy
deriving DecidableEq, Repr

/-- An accepted operation descriptor: the field name plus the raw function
signature behind its `Option<...>` type. -/
structure Descriptor where
  name : String
  fn : BareFn
deriving DecidableEq, Repr

/-- `sub_type`: strips pointers to references and rewrites `c_char` to
`u8`; used for the element type of a collapsed pointer+length pair. -/
inductive LTy
  | cty (t : CTy)
  | u8
  | ref (isMut : Bool) (t : LTy)
  | slice (isMut : Bool) (t : LTy)
  | strRef
  | optionRef (isMut : Bool) (elem : CTy)
deriving DecidableEq, Repr

def subTy : CTy → LTy
  | .ptr m e => .ref m (subTy e)
  | .path s => if s == "c_char" then .u8 else .cty (.path s)

/-- The conversion statement the synthesizer emits for one synthesized
parameter: a pointer+length pair collapsed to `slice::from_raw_parts`, a
`CStr::from_ptr(..).to_str().unwrap()` text decode, a nullable-pointer
`as_ref`/`as_mut`, or a plain pass-through binding. -/
inductive ConvSpec
  | slicePair (isMut : Bool)
  | text
  | optRef (isMut : Bool)
  | pass
deriving DecidableEq, Repr

/-- Result of `UnsafeFnConvert::new` for one raw signature. -/
structure FnConvert where
  new_inputs : List (String × LTy)
  unconverted_call : List String
  converted_call : List String
  conversion : List ConvSpec
deriving DecidableEq, Repr

/-- Conversion for a parameter that is not part of a collapsed pair,
following the source's arm order: a `*const` pointer to `c_char` becomes
`&str`; any other pointer becomes `Option<&T>` / `Option<&mut T>`; a path
type passes through unchanged. -/
def loneConv (t : CTy) : LTy × ConvSpec :=
  match t with
  | .ptr false e =>
      if isIdentTy e "c_char" then (.strRef, .text)
      else (.optionRef false e, .optRef false)
  | .ptr true e => (.optionRef true e, .optRef true)
  | .path s => (.cty (.path s), .pass)

/-- Whether the lookahead iterator's current element is a `usize`
(`sized` in the source). -/
def sizedNext (look : List RawArg) : Bool :=
  match look.head? with
  | some n => isIdentTy n.ty "usize"
  | none => false

/-- Name of the lookahead iterator's current element (`size_ident`). -/
def sizeName (look : List RawArg) : String :=
  match look.head? with
  | some n => n.name
  | none => ""

/-- The scan loop of `UnsafeFnConvert::new`.  The first list is the main
`inputs` iterator, the second the cloned `lookahead` iterator.  Each loop
iteration advances the lookahead exactly once; a collapsed pointer+length
pair additionally consumes one element of the main iterator only, so after
a collapse the lookahead points at the main iterator's current element. -/
def scan : List RawArg → List RawArg → FnConvert
  | [], _ => ⟨[], [], [], []⟩
  | [arg], look =>
      match arg.ty, sizedNext look with
      | CTy.ptr m e, true =>
          ⟨[(arg.name, LTy.slice m (subTy e))],
           [arg.name, sizeName look], [arg.name], [ConvSpec.slicePair m]⟩
      | ty, _ =>
          let c := loneConv ty
          ⟨[(arg.name, c.1)], [arg.name], [arg.name], [c.2]⟩
  | arg :: b :: rest, look =>
      match arg.ty, sizedNext look with
      | CTy.ptr m e, true =>
          let r := scan rest look.tail
          ⟨(arg.name, LTy.slice m (subTy e)) :: r.new_inputs,
           arg.name :: sizeName look :: r.unconverted_call,
           arg.name :: r.converted_call,
           ConvSpec.slicePair m :: r.conversion⟩
      | ty, _ =>
          let c := loneConv ty
          let r := scan (b :: rest) look.tail
          ⟨(arg.name, c.1) :: r.new_inputs,
           arg.name :: r.unconverted_call,
           arg.name :: r.converted_call,
           c.2 :: r.conversion⟩

/-- `UnsafeFnConvert::new`: the lookahead iterator is the input list with
its first element skipped. -/
def fnConvert (inputs : List RawArg) : FnConvert :=
  scan inputs inputs.tail

/-- Whether the raw parameter list contains an adjacent pointer-then-`usize`
pair. -/
def isPtrTy : CTy → Bool
  | .ptr _ _ => true
  | _ => false

def hasAdjPair : List RawArg → Bool
  | a :: b :: rest => (isPtrTy a.ty && isIdentTy b.ty "usize") || hasAdjPair (b :: rest)
  | _ => false

/-- Number of adjacent pointer-then-`usize` pairs in the raw parameter
list (pairs cannot overlap, since `usize` is not a pointer type). -/
def adjPairCount : List RawArg → Nat
  | a :: b :: rest =>
      (if isPtrTy a.ty && isIdentTy b.ty "usize" then 1 else 0) + adjPairCount (b :: rest)
  | _ => 0

/-- Sanity check of the embedding on the raw `mkdir` signature. -/
theorem fnConvert_mkdir_sig :
    fnConvert [⟨"path", .ptr false (.path "c_char")⟩, ⟨"mode", .path "mode_t"⟩] =
    ⟨[("path", .strRef), ("mode", .cty (.path "mode_t"))],
     ["path", "mode"], ["path", "mode"], [.text, .pass]⟩ := by decide

/-- Sanity check of the embedding on the raw `read` signature (the spec's
Scenario A): the text pointer becomes a string view, the adjacent
buffer+size pair collapses to one mutable byte view, the offset passes
through, and the file-info pointer becomes an optional reference. -/
theorem fnConvert_read_sig :
    fnConvert
    [⟨"path", .ptr false (.path "c_char")⟩, ⟨"buf", .ptr true (.path "c_char")⟩,
     ⟨"size", .path "usize"⟩, ⟨"offset", .path "off_t"⟩,
     ⟨"fi", .ptr true (.path "fuse_file_info")⟩] =
    ⟨[("path", .strRef), ("buf", .slice true .u8), ("offset", .cty (.path "off_t")),
      ("fi", .optionRef true (.path "fuse_file_info"))],
     ["path", "buf", "size", "offset", "fi"],
     ["path", "buf", "offset", "fi"],
     [.text, .slicePair true, .pass, .optRef true]⟩ := by decide

/-- The operation table is modelled by the set of field names currently
assigned a function pointer (`Some(..)`); all other fields are `None`, as in
`fuse_operations::default()`. -/
abbrev OpsTable := List String

/-- Whether the table assigns a pointer to the named operation. -/
abbrev isSet (t : OpsTable) (op : String) : Prop := op ∈ t

/-- `ops.name = None` on a (cloned) table. -/
def setNone (t : OpsTable) (op : String) : OpsTable :=
  t.filter (fun n => n != op)

/-- The analyzer of the macro's main loop, in the source's order of
`continue` checks: blacklisted names are dropped first; then the field type
must be a path ending in `Option` with angle-bracketed arguments whose first
argument is a bare-fn type; variadic functions and functions whose return
type is not `c_int` are rejected. -/
def acceptField (blacklist : List String) (f : StructField) : Option Descriptor :=
  if f.name ∈ blacklist then none
  else
    match f.ty with
    | FieldTy.optionTy (GenArg.tyFn fn) =>
        if fn.variadic then none
        else
          match fn.output with
          | some t => if isIdentTy t "c_int" then some ⟨f.name, fn⟩ else none
          | none => none
    | _ => none

/-- The build-time output of the `fuse_operations` macro relevant here: the
accepted descriptors (in field order), the operation table assembled by
`FuseMain::run` (`operations.name = Some(Self::name)` per accepted field,
starting from the all-`None` default), and the original struct, which the
macro re-emits verbatim (`#out`). -/
structure MacroOut where
  descriptors : List Descriptor
  assignedOps : OpsTable
  emitted : List StructField
deriving DecidableEq, Repr

def fuseOperationsGen (blacklist : List String) (fields : List StructField) : MacroOut :=
  let ds := fields.filterMap (acceptField blacklist)
  ⟨ds, ds.map Descriptor.name, fields⟩

/-- Model of `std::io::Error` restricted to what the trampoline inspects:
its `raw_os_error()` discriminant. -/
structure IoError where
  raw_os_error : Option Int
deriving DecidableEq, Repr

def from_raw_os_error (c : Int) : IoError := ⟨some c⟩

/-- Model of `anyhow::Error` restricted to the downcasts the trampoline
performs: an `std::io::Error`, a `nix::errno::Errno` (carrying its positive
integer value), or any other error. -/
inductive AnyErr
  | io (e : IoError)
  | errno (code : Int)
  | other (msg : String)
deriving DecidableEq, Repr

def downcastIo : AnyErr → Option IoError
  | .io e => some e
  | _ => none

def downcastErrno : AnyErr → Option Int
  | .errno c => some c
  | _ => none

/-- Result of the trampoline's result-mapping `match`: the raw status code
returned to the native caller and the operation name printed to stderr via
`eprintln!` when an unrecognized error is mapped to `-131` (otherwise
nothing is printed). -/
structure MapOut where
  code : Int
  diag : Option String
deriving DecidableEq, Repr

/-- The `match #out_ident { Ok(o) => .., Err(e) => .. }` block of the
emitted trampoline, in the source's branch order: downcast to
`std::io::Error` first (negated `raw_os_error` if present, else `-131` with
a diagnostic), then downcast to `nix::errno::Errno` (negated value), else
`-131` with a diagnostic. -/
def mapResult (op : String) : Except AnyErr Int → MapOut
  | .ok o => ⟨o, none⟩
  | .error e =>
      match downcastIo e with
      | some ioe =>
          match ioe.raw_os_error with
          | some os => ⟨-os, none⟩
          | none => ⟨-131, some op⟩
      | none =>
          match downcastErrno e with
          | some c => ⟨-c, none⟩
          | none => ⟨-131, some op⟩

/-- The default body of every generated safe method in the exclusive
(`&mut self`, `UnthreadedFileSystem`) trait family:
`Err(std::io::Error::from_raw_os_error(38).into())`. -/
def unthreadedDefaultBody : Except AnyErr Int :=
  .error (.io (from_raw_os_error 38))

/-- The default body of every generated safe method in the shared
(`&self`, `FileSystem`) trait family: identical to the exclusive one. -/
def threadedDefaultBody : Except AnyErr Int :=
  .error (.io (from_raw_os_error 38))

/-- The fixed status value the emitted trampoline compares the mapped code
against to trigger the delegation fallback (`if #out_ident == -38`). -/
def declineSentinel : Int := -38

/-- Raw argument values as passed by the native caller: integers, the null
pointer, a non-null pointer to a NUL-terminated byte string (the bytes
before the terminator), or a non-null pointer to other data. -/
inductive CVal
  | int (n : Int)
  | nullPtr
  | strPtr (bytes : List Nat)
  | dataPtr (addr : Nat)
deriving DecidableEq, Repr

/-- Safe argument values as received by the generated safe method. -/
inductive SVal
  | str (bytes : List Nat)
  | slice (isMut : Bool) (base : CVal) (len : CVal)
  | someRef (isMut : Bool) (target : CVal)
  | noneRef
  | raw (v : CVal)
deriving DecidableEq, Repr

def isCont (b : Nat) : Bool := 0x80 ≤ b && b ≤ 0xBF

/-- UTF-8 validity of a byte sequence, as checked by
`str::from_utf8` (which `CStr::to_str` calls). -/
def validUtf8 : List Nat → Bool
  | [] => true
  | b :: rest =>
      if b ≤ 0x7F then validUtf8 rest
      else if 0xC2 ≤ b && b ≤ 0xDF then
        match rest with
        | c1 :: r => isCont c1 && validUtf8 r
        | [] => false
      else if b == 0xE0 then
        match rest with
        | c1 :: c2 :: r => (0xA0 ≤ c1 && c1 ≤ 0xBF) && isCont c2 && validUtf8 r
        | _ => false
      else if (0xE1 ≤ b && b ≤ 0xEC) || b == 0xEE || b == 0xEF then
        match rest with
        | c1 :: c2 :: r => isCont c1 && isCont c2 && validUtf8 r
        | _ => false
      else if b == 0xED then
        match rest with
        | c1 :: c2 :: r => (0x80 ≤ c1 && c1 ≤ 0x9F) && isCont c2 && validUtf8 r
        | _ => false
      else if b == 0xF0 then
        match rest with
        | c1 :: c2 :: c3 :: r => (0x90 ≤ c1 && c1 ≤ 0xBF) && isCont c2 && isCont c3 && validUtf8 r
        | _ => false
      else if 0xF1 ≤ b && b ≤ 0xF3 then
        match rest with
        | c1 :: c2 :: c3 :: r => isCont c1 && isCont c2 && isCont c3 && validUtf8 r
        | _ => false
      else if b == 0xF4 then
        match rest with
        | c1 :: c2 :: c3 :: r => (0x80 ≤ c1 && c1 ≤ 0x8F) && isCont c2 && isCont c3 && validUtf8 r
        | _ => false
      else false

/-- Runs the emitted conversion statements on the raw argument values.
`none` models a failure that does not produce a status code: the
`to_str().unwrap()` panic on invalid UTF-8, or undefined behavior of
`CStr::from_ptr` on a pointer that is not a valid NUL-terminated string.
A collapsed pair consumes two raw values and builds one bounded view;
a nullable pointer becomes `None` exactly when the raw pointer is null. -/
def applySpecs : List ConvSpec → List CVal → Option (List SVal)
  | [], [] => some []
  | [], _ :: _ => none
  | ConvSpec.slicePair m :: ss, vs =>
      match vs with
      | v :: n :: rest => (applySpecs ss rest).map (fun tl => SVal.slice m v n :: tl)
      | _ => none
  | ConvSpec.text :: ss, vs =>
      match vs with
      | CVal.strPtr bytes :: rest =>
          if validUtf8 bytes then (applySpecs ss rest).map (fun tl => SVal.str bytes :: tl)
          else none
      | _ => none
  | ConvSpec.optRef m :: ss, vs =>
      match vs with
      | CVal.nullPtr :: rest => (applySpecs ss rest).map (fun tl => SVal.noneRef :: tl)
      | v :: rest => (applySpecs ss rest).map (fun tl => SVal.someRef m v :: tl)
      | [] => none
  | ConvSpec.pass :: ss, vs =>
      match vs with
      | v :: rest => (applySpecs ss rest).map (fun tl => SVal.raw v :: tl)
      | [] => none

/-- The per-mount context (`UserData<T>`): a snapshot of the assembled
operation table plus the raw pointer to the filesystem instance
(`none` models a null/mangled pointer). -/
structure UserData (F : Type) where
  ops : OpsTable
  thisPtr : Option F
deriving DecidableEq, Repr

/-- Calls into the native library made by a trampoline, recorded as events:
`fuse_fs_new` on a table and a transient context, the
`fuse_fs_<op>` dispatch through that handle with the raw arguments, and
`fuse_fs_destroy`. -/
inductive TrampEvent (F : Type)
  | fsNew (table : OpsTable) (ctx : UserData F)
  | fsDispatch (op : String) (table : OpsTable) (ctx : UserData F) (args : List CVal)
  | fsDestroy (table : OpsTable) (ctx : UserData F)
deriving DecidableEq, Repr

/-- How one trampoline invocation terminates: a returned status code, or a
panic/abnormal termination that does not produce a status code. -/
inductive Outcome
  | ret (code : Int)
  | panicked (msg : String)
deriving DecidableEq, Repr

/-- Observable behavior of one trampoline invocation: its termination, the
native calls it made, and the per-mount context as left behind (the code
never writes through the context pointer). -/
structure TrampOut (F : Type) where
  outcome : Outcome
  events : List (TrampEvent F)
  ctxAfter : Option (UserData F)
deriving DecidableEq, Repr

/-- The emitted raw trampoline for operation `op` with raw signature
`inputs`, for either access flavor (`flavor = true` models the exclusive
`as_mut` flavor, `false` the shared `as_ref` one; the two emitted bodies
differ only in that accessor and both `expect` on a null pointer).  In
source order: run the conversion statements; recover the `UserData` from the
native context pointer (`expect("Mangled UserData")`); deref the filesystem
pointer (`expect("Private data mangled")`); call the safe method; map the
result; if the mapped code equals `-38`, clone the table with `op` nulled,
build a transient context with the same filesystem pointer, construct a
transient handle via `fuse_fs_new`, dispatch `fuse_fs_<op>` through it with
the original raw arguments, destroy the handle and return the native result;
otherwise return the mapped code. -/
def trampoline {F : Type} (flavor : Bool) (op : String) (inputs : List RawArg)
    (method : F → List SVal → Except AnyErr Int)
    (native : String → OpsTable → List CVal → Int)
    (rawCtx : Option (UserData F)) (rawArgs : List CVal) : TrampOut F :=
  match applySpecs (fnConvert inputs).conversion rawArgs with
  | none => ⟨.panicked "CStr conversion failed", [], rawCtx⟩
  | some svals =>
      match rawCtx with
      | none => ⟨.panicked "Mangled UserData", [], rawCtx⟩
      | some ctx =>
          match ctx.thisPtr with
          | none => ⟨.panicked "Private data mangled", [], rawCtx⟩
          | some fs =>
              let mo := mapResult op (method fs svals)
              if mo.code = -38 then
                let ops := setNone ctx.ops op
                let dummy : UserData F := ⟨ops, some fs⟩
                ⟨.ret (native op ops rawArgs),
                 [.fsNew ops dummy, .fsDispatch op ops dummy rawArgs, .fsDestroy ops dummy],
                 rawCtx⟩
              else ⟨.ret mo.code, [], rawCtx⟩

/-- Events of `FuseMain::run`: creation of the per-mount context, the call
into `fuse_main_real` with the assembled argument vector and table, and the
release of the context when `run` returns. -/
inductive RunEvent
  | ctxCreated (ops : OpsTable)
  | mainCalled (argv : List String) (ops : OpsTable)
  | ctxReleased
deriving DecidableEq, Repr

structure RunOut where
  result : Except Int Unit
  argv : List String
  events : List RunEvent
deriving Repr

/-- `FuseMain::run`: assembles the operation table from the accepted fields,
creates the per-mount context, builds the argument vector from the
caller-supplied arguments with `"-s"` appended exactly when the exclusive
(`UNTHREADED = true`) flavor is selected, invokes `fuse_main_real`
(abstracted as the oracle `nativeMain`), maps `0` to success and any other
return to the native failure code, and releases the context afterwards. -/
def runHarness (unthreaded : Bool) (fuseArgs : List String)
    (blacklist : List String) (fields : List StructField)
    (nativeMain : List String → OpsTable → Int) : RunOut :=
  let operations := (fuseOperationsGen blacklist fields).assignedOps
  let argv := fuseArgs ++ (if unthreaded then ["-s"] else [])
  let out := nativeMain argv operations
  ⟨if out = 0 then .ok () else .error out,
   argv,
   [.ctxCreated operations, .mainCalled argv operations, .ctxReleased]⟩

/-- Specification side (§4.3 step 4): which failures count as "wrapping an
OS error with code e".  Stated from the spec's words, to be compared with
`mapResult`, which is translated from the source. -/
def specOsErrorCode : AnyErr → Option Int
  | .io e => e.raw_os_error
  | .errno c => some c
  | .other _ => none

/-- Specification side (§4.1): the "optional raw function pointer, whose
function is non-variadic and returns the platform status code" shape.
Stated from the spec's words, to be compared with `acceptField`, which is
translated from the source. -/
def SpecOperationShape (ft : FieldTy) : Prop :=
  ∃ fn, ft = FieldTy.optionTy (GenArg.tyFn fn) ∧ fn.variadic = false ∧
    fn.output = some (CTy.path "c_int")


theorem scan_sync_new_inputs_length (xs : List RawArg) :
    (scan xs xs).new_inputs.length = xs.length := by
  induction xs with
  | nil => rfl
  | cons a t ih =>
      cases t with
      | nil =>
          rcases a with ⟨n, ty⟩
          cases ty <;> simp [scan, sizedNext, isIdentTy]
      | cons b r =>
          rcases a with ⟨n, ty⟩
          cases ty with
          | ptr m e => simp [scan, sizedNext, isIdentTy, ih]
          | path s => simp [scan, sizedNext, isIdentTy, ih]

theorem scan_sync_unconverted (xs : List RawArg) :
    (scan xs xs).unconverted_call = xs.map RawArg.name := by
  induction xs with
  | nil => rfl
  | cons a t ih =>
      cases t with
      | nil =>
          rcases a with ⟨n, ty⟩
          cases ty <;> simp [scan, sizedNext, isIdentTy]
      | cons b r =>
          rcases a with ⟨n, ty⟩
          cases ty with
          | ptr m e => simp [scan, sizedNext, isIdentTy, ih]
          | path s => simp [scan, sizedNext, isIdentTy, ih]

theorem hasAdjPair_length_ge {xs : List RawArg} (h : hasAdjPair xs = true) :
    2 ≤ xs.length := by
  match xs with
  | [] => simp [hasAdjPair] at h
  | [a] => simp [hasAdjPair] at h
  | a :: b :: r => simp

/-- Helper for the amended C4: the scan collapses exactly one pair when an
adjacent pointer+`usize` pair exists, and none otherwise. -/
theorem fnConvert_new_inputs_length (xs : List RawArg) :
    (fnConvert xs).new_inputs.length =
      xs.length - (if hasAdjPair xs then 1 else 0) := by
  induction xs with
  | nil => rfl
  | cons a t ih =>
      cases t with
      | nil =>
          rcases a with ⟨n, ty⟩
          cases ty <;> simp [fnConvert, scan, sizedNext, hasAdjPair]
      | cons b r =>
          rcases a with ⟨n, ty⟩
          simp only [fnConvert, List.tail_cons] at ih ⊢
          cases ty with
          | ptr m e =>
              cases hs : isIdentTy b.ty "usize" with
              | true =>
                  have hpair : hasAdjPair (⟨n, CTy.ptr m e⟩ :: b :: r) = true := by
                    simp [hasAdjPair, isPtrTy, hs]
                  simp only [scan, sizedNext, List.head?_cons, hs, List.tail_cons,
                    List.length_cons, hpair, if_true, scan_sync_new_inputs_length]
                  omega
              | false =>
                  have hpair : hasAdjPair (⟨n, CTy.ptr m e⟩ :: b :: r) =
                      hasAdjPair (b :: r) := by
                    simp [hasAdjPair, hs]
                  rw [hpair]
                  simp only [scan, sizedNext, List.head?_cons, hs, List.tail_cons,
                    List.length_cons, ih]
                  cases hq : hasAdjPair (b :: r) with
                  | true =>
                      have h2 := hasAdjPair_length_ge hq
                      simp only [List.length_cons] at h2
                      simp only [if_true]
                      omega
                  | false => simp
          | path s =>
              have hpair : hasAdjPair (⟨n, CTy.path s⟩ :: b :: r) =
                  hasAdjPair (b :: r) := by
                simp [hasAdjPair, isPtrTy]
              rw [hpair]
              simp only [scan, sizedNext, List.head?_cons, List.tail_cons,
                List.length_cons, ih]
              cases hq : hasAdjPair (b :: r) with
              | true =>
                  have h2 := hasAdjPair_length_ge hq
                  simp only [List.length_cons] at h2
                  simp only [if_true]
                  omega
              | false => simp

/-- Helper: the synthesizer retains the full original raw argument list, in
order; a collapsed pair contributes both its pointer and its length
identifier to `unconverted_call`. -/
theorem fnConvert_unconverted (xs : List RawArg) :
    (fnConvert xs).unconverted_call = xs.map RawArg.name := by
  induction xs with
  | nil => rfl
  | cons a t ih =>
      cases t with
      | nil =>
          rcases a with ⟨n, ty⟩
          cases ty <;> simp [fnConvert, scan, sizedNext]
      | cons b r =>
          rcases a with ⟨n, ty⟩
          simp only [fnConvert, List.tail_cons] at ih ⊢
          cases ty with
          | ptr m e =>
              cases hs : isIdentTy b.ty "usize" with
              | true =>
                  simp only [scan, sizedNext, List.head?_cons, hs, List.tail_cons, sizeName,
                    scan_sync_unconverted]
                  simp
              | false =>
                  simp only [scan, sizedNext, List.head?_cons, hs, List.tail_cons]
                  simp [ih]
          | path s =>
              simp only [scan, sizedNext, List.head?_cons, List.tail_cons]
              simp [ih]

/-- A raw parameter list with two adjacent pointer+length pairs, as used to
test the synthesizer's pairwise scan. -/
def twoPairList : List RawArg :=
  [⟨"buf1", CTy.ptr true (CTy.path "c_char")⟩, ⟨"size1", CTy.path "usize"⟩,
   ⟨"buf2", CTy.ptr true (CTy.path "c_char")⟩, ⟨"size2", CTy.path "usize"⟩]

/-- Claim C4, counterexample.  The claim says every pointer parameter
immediately followed by a matching length parameter collapses into one
bounded-view parameter, consuming both raw slots — which would make the
synthesized parameter count equal the raw count minus the number of
adjacent pairs.  On a list with two adjacent pointer+`usize` pairs the
scan's lookahead desynchronizes after the first collapse, so the second
pair is not collapsed: the pointer becomes an optional reference and the
length passes through, and the count drops by one, not two. -/
theorem second_pair_not_collapsed :
    ¬ ((fnConvert twoPairList).new_inputs.length =
        twoPairList.length - adjPairCount twoPairList)
    ∧ adjPairCount twoPairList = 2
    ∧ (fnConvert twoPairList).conversion =
        [ConvSpec.slicePair true, ConvSpec.optRef true, ConvSpec.pass] := by
  decide

/-- Claim C4 (amended): the scan collapses only the first adjacent
pointer+`usize` pair (after a collapse the lookahead iterator points at the
element under scan, so no later pair can match), hence the synthesized
signature has exactly one fewer parameter than the raw signature when at
least one adjacent pointer+length pair exists, and the same number
otherwise. -/
theorem synth_one_fewer_param (xs : List RawArg) :
    (fnConvert xs).new_inputs.length =
      xs.length - (if hasAdjPair xs then 1 else 0) :=
  fnConvert_new_inputs_length xs

/-- Claim C3: the trampoline maps a success carrying `v` to `v`; a failure
wrapping an OS error with code `e` (an `io::Error` with a raw OS code, or a
`nix::errno::Errno`) to `-e`; and any other failure to the fixed internal
sentinel `-131` together with a diagnostic naming the operation on the
error stream. -/
theorem trampoline_maps_results (op : String) (r : Except AnyErr Int) :
    mapResult op r =
      match r with
      | .ok v => ⟨v, none⟩
      | .error e =>
          match specOsErrorCode e with
          | some c => ⟨-c, none⟩
          | none => ⟨-131, some op⟩ := by
  cases r with
  | ok v => rfl
  | error e =>
      cases e with
      | io ioe =>
          rcases ioe with ⟨o⟩
          cases o <;> rfl
      | errno c => rfl
      | other m => rfl

/-- Claim C5: a field is accepted as an operation descriptor iff its name is
not blacklisted and its type is an optional non-variadic raw function
pointer returning `c_int`; the macro's descriptor list is exactly the
per-field filter, and the struct itself is re-emitted untouched. -/
theorem analyzer_accepts_iff (bl : List String) (fields : List StructField)
    (f : StructField) :
    ((acceptField bl f).isSome ↔ (f.name ∉ bl ∧ SpecOperationShape f.ty))
    ∧ (fuseOperationsGen bl fields).descriptors = fields.filterMap (acceptField bl)
    ∧ (fuseOperationsGen bl fields).emitted = fields := by
  refine ⟨?_, rfl, rfl⟩
  rcases f with ⟨n, ty⟩
  show (acceptField bl ⟨n, ty⟩).isSome ↔ (n ∉ bl ∧ SpecOperationShape ty)
  unfold acceptField SpecOperationShape
  by_cases hb : n ∈ bl
  · simp [hb]
  · simp only [hb, if_false, not_false_iff, true_and]
    cases ty with
    | optionTy g =>
        cases g with
        | tyFn fn =>
            cases hv : fn.variadic with
            | true => simp [hv]
            | false =>
                cases ho : fn.output with
                | none => simp [ho]
                | some t =>
                    cases t with
                    | ptr m e => simp [isIdentTy, hv, ho]
                    | path s =>
                        by_cases hc : s = "c_int"
                        · subst hc; simp [isIdentTy, ho, hv]
                        · simp [isIdentTy, hc, ho]
        | otherArg => simp
    | pathTy s => simp
    | otherTy => simp

/-- Helper: an accepted field keeps its own name and is never
blacklisted. -/
theorem acceptField_name {bl : List String} {f : StructField} {d : Descriptor}
    (h : acceptField bl f = some d) : d.name = f.name ∧ f.name ∉ bl := by
  rcases f with ⟨n, ty⟩
  by_cases hb : n ∈ bl
  · simp [acceptField, hb] at h
  · cases ty with
    | optionTy g =>
        cases g with
        | tyFn fn =>
            cases hv : fn.variadic with
            | true => simp [acceptField, hb, hv] at h
            | false =>
                cases ho : fn.output with
                | none => simp [acceptField, hb, hv, ho] at h
                | some t =>
                    by_cases hc : isIdentTy t "c_int"
                    · simp only [acceptField, hb, if_false, hv, ho, hc, if_true,
                        Bool.false_eq_true, Option.some.injEq] at h
                      rw [← h]
                      exact ⟨rfl, hb⟩
                    · simp [acceptField, hb, hv, ho, hc] at h
        | otherArg => simp [acceptField, hb] at h
    | pathTy s => simp [acceptField, hb] at h
    | otherTy => simp [acceptField, hb] at h

/-- Claim C6: a blacklisted name's table field is never assigned a pointer,
neither in the table assembled by `FuseMain::run` nor in any clone of it
with one entry nulled as used by the fallback; this holds whatever methods
the implementing type defines, since assignment depends only on the field
list and the blacklist. -/
theorem blacklisted_never_assigned (bl : List String) (fields : List StructField)
    (b : String) (op : String) (hb : b ∈ bl) :
    ¬ isSet (fuseOperationsGen bl fields).assignedOps b
    ∧ ¬ isSet (setNone (fuseOperationsGen bl fields).assignedOps op) b := by
  have hmain : ¬ isSet (fuseOperationsGen bl fields).assignedOps b := by
    intro hmem
    simp only [fuseOperationsGen, isSet, List.mem_map, List.mem_filterMap] at hmem
    obtain ⟨d, ⟨f, _, hacc⟩, hname⟩ := hmem
    obtain ⟨hdn, hnb⟩ := acceptField_name hacc
    rw [hdn] at hname
    rw [hname] at hnb
    exact hnb hb
  refine ⟨hmain, fun hmem => hmain ?_⟩
  exact List.mem_of_mem_filter hmem

/-- A small field list resembling the start of `fuse_operations`: a
blacklisted eligible field, an eligible field, and a capability-flag
field. -/
def demoFields : List StructField :=
  [⟨"getdir", FieldTy.optionTy (GenArg.tyFn
      ⟨[⟨"path", CTy.ptr false (CTy.path "c_char")⟩], false, some (CTy.path "c_int")⟩)⟩,
   ⟨"mkdir", FieldTy.optionTy (GenArg.tyFn
      ⟨[⟨"path", CTy.ptr false (CTy.path "c_char")⟩, ⟨"mode", CTy.path "mode_t"⟩],
       false, some (CTy.path "c_int")⟩)⟩,
   ⟨"flag_nullpath_ok", FieldTy.pathTy "c_uint"⟩]

theorem blacklisted_never_assigned_witness :
    ("getdir" ∈ ["getdir", "utime"])
    ∧ (¬ isSet (fuseOperationsGen ["getdir", "utime"] demoFields).assignedOps "getdir"
       ∧ ¬ isSet (setNone (fuseOperationsGen ["getdir", "utime"] demoFields).assignedOps
            "mkdir") "getdir") :=
  ⟨by decide,
   blacklisted_never_assigned ["getdir", "utime"] demoFields "getdir" "mkdir" (by decide)⟩

/-- Helper: behavior of a trampoline on a contract-respecting invocation
(conversions succeed, context and filesystem pointers valid): it either
performs the delegation fallback (when the mapped code is `-38`) or returns
the mapped code, and in both cases leaves the context unchanged. -/
theorem trampoline_valid_run {F : Type} (flavor : Bool) (op : String)
    (inputs : List RawArg) (method : F → List SVal → Except AnyErr Int)
    (native : String → OpsTable → List CVal → Int)
    (ctx : UserData F) (fs : F) (svals : List SVal) (rawArgs : List CVal)
    (hconv : applySpecs (fnConvert inputs).conversion rawArgs = some svals)
    (hthis : ctx.thisPtr = some fs) :
    trampoline flavor op inputs method native (some ctx) rawArgs =
      (if (mapResult op (method fs svals)).code = -38 then
        ⟨.ret (native op (setNone ctx.ops op) rawArgs),
         [.fsNew (setNone ctx.ops op) ⟨setNone ctx.ops op, some fs⟩,
          .fsDispatch op (setNone ctx.ops op) ⟨setNone ctx.ops op, some fs⟩ rawArgs,
          .fsDestroy (setNone ctx.ops op) ⟨setNone ctx.ops op, some fs⟩],
         some ctx⟩
      else ⟨.ret (mapResult op (method fs svals)).code, [], some ctx⟩) := by
  unfold trampoline
  simp only [hconv, hthis]

/-- Claim C1: when the mapped status code equals the decline sentinel, the
trampoline does not return it; it clones the context's operation table with
the entry for the operation nulled, builds a transient context with the
same filesystem pointer and the clone, constructs a transient handle from
the clone via `fuse_fs_new`, dispatches the native entry point for the
operation through that handle with the original unconverted raw arguments
(the synthesizer's `unconverted_call` is exactly the original raw argument
list), destroys the handle, and returns the native result. -/
theorem fallback_delegates {F : Type} (flavor : Bool) (op : String)
    (inputs : List RawArg) (method : F → List SVal → Except AnyErr Int)
    (native : String → OpsTable → List CVal → Int)
    (ctx : UserData F) (fs : F) (svals : List SVal) (rawArgs : List CVal)
    (hconv : applySpecs (fnConvert inputs).conversion rawArgs = some svals)
    (hthis : ctx.thisPtr = some fs)
    (hdecl : (mapResult op (method fs svals)).code = -38) :
    (fnConvert inputs).unconverted_call = inputs.map RawArg.name
    ∧ trampoline flavor op inputs method native (some ctx) rawArgs =
        ⟨Outcome.ret (native op (setNone ctx.ops op) rawArgs),
         [TrampEvent.fsNew (setNone ctx.ops op) ⟨setNone ctx.ops op, some fs⟩,
          TrampEvent.fsDispatch op (setNone ctx.ops op) ⟨setNone ctx.ops op, some fs⟩
            rawArgs,
          TrampEvent.fsDestroy (setNone ctx.ops op) ⟨setNone ctx.ops op, some fs⟩],
         some ctx⟩ := by
  refine ⟨fnConvert_unconverted inputs, ?_⟩
  rw [trampoline_valid_run flavor op inputs method native ctx fs svals rawArgs hconv hthis,
    if_pos hdecl]

theorem fallback_delegates_witness :
    applySpecs (fnConvert [⟨"path", CTy.ptr false (CTy.path "c_char")⟩,
        ⟨"mode", CTy.path "mode_t"⟩]).conversion [CVal.strPtr [47], CVal.int 493]
      = some [SVal.str [47], SVal.raw (CVal.int 493)]
    ∧ (⟨["mkdir", "getattr"], some ()⟩ : UserData Unit).thisPtr = some ()
    ∧ (mapResult "mkdir"
        ((fun (_ : Unit) _ => unthreadedDefaultBody) ()
          [SVal.str [47], SVal.raw (CVal.int 493)])).code = -38
    ∧ ((fnConvert [⟨"path", CTy.ptr false (CTy.path "c_char")⟩,
          ⟨"mode", CTy.path "mode_t"⟩]).unconverted_call =
        [RawArg.mk "path" (CTy.ptr false (CTy.path "c_char")),
         RawArg.mk "mode" (CTy.path "mode_t")].map RawArg.name
       ∧ trampoline true "mkdir"
          [⟨"path", CTy.ptr false (CTy.path "c_char")⟩, ⟨"mode", CTy.path "mode_t"⟩]
          (fun (_ : Unit) _ => unthreadedDefaultBody) (fun _ _ _ => 0)
          (some ⟨["mkdir", "getattr"], some ()⟩) [CVal.strPtr [47], CVal.int 493] =
        ⟨Outcome.ret ((fun _ _ _ => (0 : Int)) "mkdir"
            (setNone ["mkdir", "getattr"] "mkdir") [CVal.strPtr [47], CVal.int 493]),
         [TrampEvent.fsNew (setNone ["mkdir", "getattr"] "mkdir")
            ⟨setNone ["mkdir", "getattr"] "mkdir", some ()⟩,
          TrampEvent.fsDispatch "mkdir" (setNone ["mkdir", "getattr"] "mkdir")
            ⟨setNone ["mkdir", "getattr"] "mkdir", some ()⟩
            [CVal.strPtr [47], CVal.int 493],
          TrampEvent.fsDestroy (setNone ["mkdir", "getattr"] "mkdir")
            ⟨setNone ["mkdir", "getattr"] "mkdir", some ()⟩],
         some ⟨["mkdir", "getattr"], some ()⟩⟩) :=
  ⟨rfl, rfl, rfl,
   fallback_delegates true "mkdir"
     [⟨"path", CTy.ptr false (CTy.path "c_char")⟩, ⟨"mode", CTy.path "mode_t"⟩]
     (fun _ _ => unthreadedDefaultBody) (fun _ _ _ => 0)
     ⟨["mkdir", "getattr"], some ()⟩ () [SVal.str [47], SVal.raw (CVal.int 493)]
     [CVal.strPtr [47], CVal.int 493] rfl rfl rfl⟩

/-- Claim C2, counterexample: with a text argument whose bytes are not
valid UTF-8, the emitted `CStr::from_ptr(..).to_str().unwrap()` conversion
panics, so the trampoline terminates abnormally instead of returning a
well-formed status code. -/
theorem trampoline_panics_on_invalid_utf8 :
    (trampoline true "open"
        [⟨"path", CTy.ptr false (CTy.path "c_char")⟩,
         ⟨"fi", CTy.ptr true (CTy.path "fuse_file_info")⟩]
        (fun (_ : Unit) _ => Except.ok 0) (fun _ _ _ => 0)
        (some ⟨["open"], some ()⟩)
        [CVal.strPtr [255], CVal.nullPtr]).outcome
      = Outcome.panicked "CStr conversion failed" := by
  decide

/-- Claim C2 (amended): on a contract-respecting invocation — every text
argument a valid null-terminated, validly encoded string, and a valid
per-call context with a valid filesystem pointer — every failure path of
the safe method resolves to a returned status code: the trampoline always
terminates with `Outcome.ret`, never with a panic, whatever the method
returns.  On contract violations (undecodable text argument, null or
mangled context pointer) the trampoline panics instead of returning a
status code. -/
theorem trampoline_total_on_contract {F : Type} (flavor : Bool) (op : String)
    (inputs : List RawArg) (method : F → List SVal → Except AnyErr Int)
    (native : String → OpsTable → List CVal → Int)
    (ctx : UserData F) (fs : F) (svals : List SVal) (rawArgs : List CVal)
    (hconv : applySpecs (fnConvert inputs).conversion rawArgs = some svals)
    (hthis : ctx.thisPtr = some fs) :
    ∃ c, (trampoline flavor op inputs method native (some ctx) rawArgs).outcome
      = Outcome.ret c := by
  rw [trampoline_valid_run flavor op inputs method native ctx fs svals rawArgs hconv hthis]
  by_cases h : (mapResult op (method fs svals)).code = -38
  · exact ⟨_, by rw [if_pos h]⟩
  · exact ⟨_, by rw [if_neg h]⟩

theorem trampoline_total_witness :
    applySpecs (fnConvert [⟨"path", CTy.ptr false (CTy.path "c_char")⟩]).conversion
        [CVal.strPtr [47]] = some [SVal.str [47]]
    ∧ (⟨["open"], some ()⟩ : UserData Unit).thisPtr = some ()
    ∧ ∃ c, (trampoline false "open" [⟨"path", CTy.ptr false (CTy.path "c_char")⟩]
        (fun (_ : Unit) _ => Except.error (AnyErr.other "boom")) (fun _ _ _ => 0)
        (some ⟨["open"], some ()⟩) [CVal.strPtr [47]]).outcome = Outcome.ret c :=
  ⟨rfl, rfl,
   trampoline_total_on_contract false "open"
     [⟨"path", CTy.ptr false (CTy.path "c_char")⟩]
     (fun _ _ => Except.error (AnyErr.other "boom")) (fun _ _ _ => 0)
     ⟨["open"], some ()⟩ () [SVal.str [47]] [CVal.strPtr [47]] rfl rfl⟩

/-- The raw `getattr` signature and a contract-respecting raw argument
list, used to exercise the decline protocol at concrete inputs. -/
def getattrSig : List RawArg :=
  [⟨"path", CTy.ptr false (CTy.path "c_char")⟩,
   ⟨"stbuf", CTy.ptr true (CTy.path "stat")⟩,
   ⟨"fi", CTy.ptr true (CTy.path "fuse_file_info")⟩]

def getattrRawArgs : List CVal :=
  [CVal.strPtr [47], CVal.dataPtr 1, CVal.nullPtr]

/-- Claim C7: the decline sentinel is the hardcoded literal `-38`,
independent of the build platform: both the trampoline's trigger
(`if out == -38`) and the default method bodies
(`from_raw_os_error(38)`) use the fixed value 38, which is the Linux
`ENOSYS` ("operation not supported" in the decline protocol's sense) but
`ENOTSOCK` on Darwin, where `ENOSYS` is 78.  Concretely: a method failure
carrying errno 38 is delegated to the native default (the trampoline
returns the native oracle's result, 7, and makes fallback calls), while a
failure carrying errno 78 — `ENOSYS` on Darwin — is returned as `-78`
without any delegation. -/
theorem decline_sentinel_hardcoded :
    declineSentinel = -38
    ∧ (mapResult "getattr" (Except.error (AnyErr.errno 38))).code = declineSentinel
    ∧ (mapResult "getattr" unthreadedDefaultBody).code = declineSentinel
    ∧ (mapResult "getattr" threadedDefaultBody).code = declineSentinel
    ∧ (trampoline true "getattr" getattrSig
        (fun (_ : Unit) _ => Except.error (AnyErr.errno 38)) (fun _ _ _ => 7)
        (some ⟨["getattr"], some ()⟩) getattrRawArgs).outcome = Outcome.ret 7
    ∧ (trampoline true "getattr" getattrSig
        (fun (_ : Unit) _ => Except.error (AnyErr.errno 38)) (fun _ _ _ => 7)
        (some ⟨["getattr"], some ()⟩) getattrRawArgs).events ≠ []
    ∧ (trampoline true "getattr" getattrSig
        (fun (_ : Unit) _ => Except.error (AnyErr.errno 78)) (fun _ _ _ => 7)
        (some ⟨["getattr"], some ()⟩) getattrRawArgs).outcome = Outcome.ret (-78)
    ∧ (trampoline true "getattr" getattrSig
        (fun (_ : Unit) _ => Except.error (AnyErr.errno 78)) (fun _ _ _ => 7)
        (some ⟨["getattr"], some ()⟩) getattrRawArgs).events = [] := by
  decide

/-- Claim C8: `run` assembles the argument vector from the caller-supplied
arguments with `"-s"` appended exactly when the exclusive flavor is
statically selected, invokes the native main entry point with that vector
and the assembled table, returns success exactly when the native call
returns zero and the native failure code otherwise, and releases the
per-mount context only after the native call has returned. -/
theorem run_assembles_and_reports (unthreaded : Bool) (fuseArgs : List String)
    (bl : List String) (fields : List StructField)
    (nativeMain : List String → OpsTable → Int) :
    (runHarness unthreaded fuseArgs bl fields nativeMain).argv
        = fuseArgs ++ (if unthreaded then ["-s"] else [])
    ∧ ((runHarness unthreaded fuseArgs bl fields nativeMain).result = Except.ok () ↔
        nativeMain (fuseArgs ++ (if unthreaded then ["-s"] else []))
          (fuseOperationsGen bl fields).assignedOps = 0)
    ∧ (runHarness unthreaded fuseArgs bl fields nativeMain).result =
        (if nativeMain (fuseArgs ++ (if unthreaded then ["-s"] else []))
              (fuseOperationsGen bl fields).assignedOps = 0
         then Except.ok ()
         else Except.error (nativeMain (fuseArgs ++ (if unthreaded then ["-s"] else []))
              (fuseOperationsGen bl fields).assignedOps))
    ∧ (runHarness unthreaded fuseArgs bl fields nativeMain).events =
        [RunEvent.ctxCreated (fuseOperationsGen bl fields).assignedOps,
         RunEvent.mainCalled (fuseArgs ++ (if unthreaded then ["-s"] else []))
           (fuseOperationsGen bl fields).assignedOps,
         RunEvent.ctxReleased] := by
  refine ⟨rfl, ?_, rfl, rfl⟩
  unfold runHarness
  by_cases h : nativeMain (fuseArgs ++ (if unthreaded then ["-s"] else []))
      (fuseOperationsGen bl fields).assignedOps = 0
  · simp [h]
  · simp [h]

/-- Claim C9: the fallback never mutates the per-mount context: the
operation entry is nulled only in a private clone (which agrees with the
original table everywhere except at the operation, where it is unset), all
fallback calls use only that clone, and the context the trampoline leaves
behind is exactly the one it received. -/
theorem fallback_preserves_context {F : Type} (flavor : Bool) (op : String)
    (inputs : List RawArg) (method : F → List SVal → Except AnyErr Int)
    (native : String → OpsTable → List CVal → Int)
    (ctx : UserData F) (fs : F) (svals : List SVal) (rawArgs : List CVal)
    (hconv : applySpecs (fnConvert inputs).conversion rawArgs = some svals)
    (hthis : ctx.thisPtr = some fs)
    (hdecl : (mapResult op (method fs svals)).code = -38) :
    (trampoline flavor op inputs method native (some ctx) rawArgs).ctxAfter = some ctx
    ∧ (∀ m, isSet (setNone ctx.ops op) m ↔ (isSet ctx.ops m ∧ m ≠ op))
    ∧ (trampoline flavor op inputs method native (some ctx) rawArgs).events =
        [TrampEvent.fsNew (setNone ctx.ops op) ⟨setNone ctx.ops op, some fs⟩,
         TrampEvent.fsDispatch op (setNone ctx.ops op) ⟨setNone ctx.ops op, some fs⟩
           rawArgs,
         TrampEvent.fsDestroy (setNone ctx.ops op) ⟨setNone ctx.ops op, some fs⟩] := by
  rw [trampoline_valid_run flavor op inputs method native ctx fs svals rawArgs hconv hthis,
    if_pos hdecl]
  refine ⟨rfl, ?_, rfl⟩
  intro m
  simp [isSet, setNone, List.mem_filter, bne_iff_ne]

theorem fallback_preserves_context_witness :
    applySpecs (fnConvert [⟨"path", CTy.ptr false (CTy.path "c_char")⟩]).conversion
        [CVal.strPtr [47, 97]] = some [SVal.str [47, 97]]
    ∧ (⟨["rmdir", "mkdir"], some ()⟩ : UserData Unit).thisPtr = some ()
    ∧ (mapResult "rmdir"
        ((fun (_ : Unit) _ => unthreadedDefaultBody) () [SVal.str [47, 97]])).code = -38
    ∧ (trampoline false "rmdir" [⟨"path", CTy.ptr false (CTy.path "c_char")⟩]
        (fun (_ : Unit) _ => unthreadedDefaultBody) (fun _ _ _ => 0)
        (some ⟨["rmdir", "mkdir"], some ()⟩) [CVal.strPtr [47, 97]]).ctxAfter
      = some ⟨["rmdir", "mkdir"], some ()⟩
    ∧ (isSet (setNone ["rmdir", "mkdir"] "rmdir") "mkdir" ↔
        (isSet ["rmdir", "mkdir"] "mkdir" ∧ "mkdir" ≠ "rmdir"))
    ∧ (trampoline false "rmdir" [⟨"path", CTy.ptr false (CTy.path "c_char")⟩]
        (fun (_ : Unit) _ => unthreadedDefaultBody) (fun _ _ _ => 0)
        (some ⟨["rmdir", "mkdir"], some ()⟩) [CVal.strPtr [47, 97]]).events =
        [TrampEvent.fsNew (setNone ["rmdir", "mkdir"] "rmdir")
           ⟨setNone ["rmdir", "mkdir"] "rmdir", some ()⟩,
         TrampEvent.fsDispatch "rmdir" (setNone ["rmdir", "mkdir"] "rmdir")
           ⟨setNone ["rmdir", "mkdir"] "rmdir", some ()⟩ [CVal.strPtr [47, 97]],
         TrampEvent.fsDestroy (setNone ["rmdir", "mkdir"] "rmdir")
           ⟨setNone ["rmdir", "mkdir"] "rmdir", some ()⟩] :=
  ⟨rfl, rfl, rfl,
   (fallback_preserves_context false "rmdir" [⟨"path", CTy.ptr false (CTy.path "c_char")⟩]
     (fun _ _ => unthreadedDefaultBody) (fun _ _ _ => 0)
     ⟨["rmdir", "mkdir"], some ()⟩ () [SVal.str [47, 97]] [CVal.strPtr [47, 97]]
     rfl rfl rfl).1,
   (fallback_preserves_context false "rmdir" [⟨"path", CTy.ptr false (CTy.path "c_char")⟩]
     (fun _ _ => unthreadedDefaultBody) (fun _ _ _ => 0)
     ⟨["rmdir", "mkdir"], some ()⟩ () [SVal.str [47, 97]] [CVal.strPtr [47, 97]]
     rfl rfl rfl).2.1 "mkdir",
   (fallback_preserves_context false "rmdir" [⟨"path", CTy.ptr false (CTy.path "c_char")⟩]
     (fun _ _ => unthreadedDefaultBody) (fun _ _ _ => 0)
     ⟨["rmdir", "mkdir"], some ()⟩ () [SVal.str [47, 97]] [CVal.strPtr [47, 97]]
     rfl rfl rfl).2.2⟩

/-- Claim C10: in both trait families every generated method's default body
is `Err(std::io::Error::from_raw_os_error(38).into())`, whose mapped code
is the decline sentinel, so an operation the implementing type does not
override is routed through the delegation fallback to the native default
behavior instead of surfacing an error. -/
theorem default_method_declines {F : Type} (flavor : Bool) (op : String)
    (inputs : List RawArg)
    (native : String → OpsTable → List CVal → Int)
    (ctx : UserData F) (fs : F) (svals : List SVal) (rawArgs : List CVal)
    (hconv : applySpecs (fnConvert inputs).conversion rawArgs = some svals)
    (hthis : ctx.thisPtr = some fs) :
    unthreadedDefaultBody = Except.error (AnyErr.io (from_raw_os_error 38))
    ∧ threadedDefaultBody = Except.error (AnyErr.io (from_raw_os_error 38))
    ∧ (mapResult op unthreadedDefaultBody).code = declineSentinel
    ∧ trampoline flavor op inputs (fun _ _ => unthreadedDefaultBody) native
        (some ctx) rawArgs =
        ⟨Outcome.ret (native op (setNone ctx.ops op) rawArgs),
         [TrampEvent.fsNew (setNone ctx.ops op) ⟨setNone ctx.ops op, some fs⟩,
          TrampEvent.fsDispatch op (setNone ctx.ops op) ⟨setNone ctx.ops op, some fs⟩
            rawArgs,
          TrampEvent.fsDestroy (setNone ctx.ops op) ⟨setNone ctx.ops op, some fs⟩],
         some ctx⟩ := by
  refine ⟨rfl, rfl, rfl, ?_⟩
  rw [trampoline_valid_run flavor op inputs (fun _ _ => unthreadedDefaultBody) native
    ctx fs svals rawArgs hconv hthis,
    if_pos (show (mapResult op unthreadedDefaultBody).code = -38 from rfl)]

theorem default_method_declines_witness :
    applySpecs (fnConvert [⟨"path", CTy.ptr false (CTy.path "c_char")⟩,
        ⟨"fi", CTy.ptr true (CTy.path "fuse_file_info")⟩]).conversion
        [CVal.strPtr [47], CVal.nullPtr] = some [SVal.str [47], SVal.noneRef]
    ∧ (⟨["opendir"], some ()⟩ : UserData Unit).thisPtr = some ()
    ∧ ((mapResult "opendir" unthreadedDefaultBody).code = declineSentinel
       ∧ trampoline true "opendir"
          [⟨"path", CTy.ptr false (CTy.path "c_char")⟩,
           ⟨"fi", CTy.ptr true (CTy.path "fuse_file_info")⟩]
          (fun (_ : Unit) _ => unthreadedDefaultBody) (fun _ _ _ => 11)
          (some ⟨["opendir"], some ()⟩) [CVal.strPtr [47], CVal.nullPtr] =
        ⟨Outcome.ret ((fun _ _ _ => (11 : Int)) "opendir"
            (setNone ["opendir"] "opendir") [CVal.strPtr [47], CVal.nullPtr]),
         [TrampEvent.fsNew (setNone ["opendir"] "opendir")
            ⟨setNone ["opendir"] "opendir", some ()⟩,
          TrampEvent.fsDispatch "opendir" (setNone ["opendir"] "opendir")
            ⟨setNone ["opendir"] "opendir", some ()⟩ [CVal.strPtr [47], CVal.nullPtr],
          TrampEvent.fsDestroy (setNone ["opendir"] "opendir")
            ⟨setNone ["opendir"] "opendir", some ()⟩],
         some ⟨["opendir"], some ()⟩⟩) :=
  ⟨rfl, rfl,
   ⟨(default_method_declines true "opendir"
      [⟨"path", CTy.ptr false (CTy.path "c_char")⟩,
       ⟨"fi", CTy.ptr true (CTy.path "fuse_file_info")⟩]
      (fun _ _ _ => 11) ⟨["opendir"], some ()⟩ () [SVal.str [47], SVal.noneRef]
      [CVal.strPtr [47], CVal.nullPtr] rfl rfl).2.2.1,
    (default_method_declines true "opendir"
      [⟨"path", CTy.ptr false (CTy.path "c_char")⟩,
       ⟨"fi", CTy.ptr true (CTy.path "fuse_file_info")⟩]
      (fun _ _ _ => 11) ⟨["opendir"], some ()⟩ () [SVal.str [47], SVal.noneRef]
      [CVal.strPtr [47], CVal.nullPtr] rfl rfl).2.2.2⟩⟩
